import Mathlib

/-
Verification development for fcos-fakeup: a shallow embedding of the
release scraper (src/scraper.rs) and the HTTP graph endpoint
(src/main.rs), with theorems settling the specification's claims.

Network fetches are modelled as an environment function
`fetch : String -> Except Unit (Option Release)`: for each stream it
yields the outcome of `Scraper::fetch_releases` (error on network
failure, non-2xx status or malformed JSON; on success the last element
of the fetched `releases` list, or `none` when that list is empty).
The prometheus metrics `UPSTREAM_SCRAPES` (counter) and `LAST_REFRESH`
(gauge) are embedded as fields `scrapes` and `lastRefresh` of the
scraper state. `HashMap` is embedded as an association list with
`mapGet` / `mapInsert`.
-/

namespace FcosFakeup

/-- Modelled from the spec: the `Commit` record of the `metadata` module,
which is not among the provided sources — "{architecture, checksum} — one
build artifact". -/
structure Commit where
  architecture : String
  checksum : String
deriving DecidableEq, Repr

/-- Modelled from the spec: the `Release` record of the `metadata` module,
which is not among the provided sources — "{version, ordered sequence of
Commit}". -/
structure Release where
  version : String
  commits : List Commit
deriving DecidableEq, Repr

/-- Embeds `CincinnatiPayload` (src/main.rs): a graph node. The
`HashMap<String, String>` metadata is embedded as an association list. -/
structure CincinnatiPayload where
  version : String
  metadata : List (String × String)
  payload : String
deriving DecidableEq, Repr

/-- Embeds `Graph` (src/main.rs). -/
structure Graph where
  nodes : List CincinnatiPayload
  edges : List (Nat × Nat)
deriving DecidableEq, Repr

/-- Association-list lookup, embedding `HashMap::get`. -/
def mapGet {α : Type} : List (String × α) → String → Option α
  | [], _ => none
  | p :: rest, k => if p.1 = k then some p.2 else mapGet rest k

/-- Association-list insertion, embedding `HashMap::insert`
(replaces the value when the key is present). -/
def mapInsert {α : Type} : List (String × α) → String → α → List (String × α)
  | [], k, v => [(k, v)]
  | p :: rest, k, v => if p.1 = k then (k, v) :: rest else p :: mapInsert rest k v

/-- The stream set configured in `main` (src/main.rs), in the order of the
`BTreeSet`. -/
def configuredStreams : List String :=
  ["bodhi-updates", "testing", "testing-devel"]

/-- The refresh pause configured in `main` (src/main.rs), in seconds. -/
def refreshPauseSecs : Nat := 30

/-- Embeds the `Scraper` actor state (src/scraper.rs). The `hclient`
field carries no observable state and is omitted; `scrapes` and
`lastRefresh` embed the process-wide metrics. -/
structure Scraper where
  latest : List (String × Release)
  refresh_pause : Nat
  streams : List String
  scrapes : Nat
  lastRefresh : Option Int
deriving Repr

/-- Embeds `Scraper::new`: empty cache, metrics at their initial values. -/
def Scraper.new (streams : List String) (refresh_pause : Nat) : Scraper :=
  { latest := []
    refresh_pause := refresh_pause
    streams := streams
    scrapes := 0
    lastRefresh := none }

/-- Outcome of one stream's fetch, see the header comment. -/
abbrev FetchOutcome := Except Unit (Option Release)

/-- Embeds `future::join_all` over the per-stream `fetch_releases`
futures in `Scraper::refresh_cache`: the joined future yields the list of
`(stream, releases.pop())` pairs in stream order, and fails as soon as
any single fetch fails (futures 0.1 `join_all` semantics). -/
def fetchAll (fetch : String → FetchOutcome) : List String → Except Unit (List (String × Option Release))
  | [] => .ok []
  | s :: rest =>
    match fetch s with
    | .error e => .error e
    | .ok r =>
      match fetchAll fetch rest with
      | .error e => .error e
      | .ok vec => .ok ((s, r) :: vec)

/-- Embeds the closure passed to `map` in `Scraper::refresh_cache`: build
a fresh map, inserting an entry only for streams whose fetch produced a
release. -/
def buildCache (vec : List (String × Option Release)) : List (String × Release) :=
  vec.foldl
    (fun m p =>
      match p.2 with
      | some rel => mapInsert m p.1 rel
      | none => m)
    []

/-- Embeds `Scraper::refresh_cache` (src/scraper.rs, lines 72-91). -/
def refresh_cache (self : Scraper) (fetch : String → FetchOutcome) : Except Unit (List (String × Release)) :=
  (fetchAll fetch self.streams).map buildCache

/-- Observable side effects of one `RefreshTick` cycle, in the order the
handler's future chain performs them. `scheduleTick` embeds
`Scraper::tick_later(ctx, pause)`. -/
inductive RefreshEvent where
  | incScrapes
  | installCache (cache : List (String × Release))
  | setLastRefresh (t : Int)
  | logError
  | scheduleTick (pause : Nat)
deriving DecidableEq, Repr

/-- True exactly on `scheduleTick` events. -/
def RefreshEvent.isTick : RefreshEvent → Bool
  | .scheduleTick _ => true
  | _ => false

/-- Embeds `Handler<RefreshTick> for Scraper` (src/scraper.rs,
lines 112-132): increment `UPSTREAM_SCRAPES`; run `refresh_cache`; on
success install the new cache and set `LAST_REFRESH` to the current
time `now`; on error only log; in either case, afterwards schedule
exactly one delayed `RefreshTick` with the configured pause. The event
list records the side effects in execution order. -/
def handleRefreshTick (self : Scraper) (fetch : String → FetchOutcome) (now : Int) :
    Scraper × List RefreshEvent :=
  let counted := { self with scrapes := self.scrapes + 1 }
  match refresh_cache self fetch with
  | .ok cache =>
    ({ counted with latest := cache, lastRefresh := some now },
     [.incScrapes, .installCache cache, .setLastRefresh now,
      .scheduleTick self.refresh_pause])
  | .error _ =>
    (counted,
     [.incScrapes, .logError, .scheduleTick self.refresh_pause])

/-- Embeds the `GetLatest` message (src/scraper.rs). -/
structure GetLatest where
  basearch : String
  stream : String
deriving DecidableEq, Repr

/-- The two error values `GetLatest` can produce:
`format_err!("stream unavailable")` and
`format_err!("basearch unavailable")`. -/
inductive GetLatestError where
  | streamUnavailable
  | basearchUnavailable
deriving DecidableEq, Repr

/-- Embeds the scan loop of `Handler<GetLatest>` (src/scraper.rs,
lines 158-164): `matching` starts empty and is overwritten by the
checksum of every commit whose architecture equals `basearch`. -/
def scanChecksum (commits : List Commit) (basearch : String) : String :=
  commits.foldl
    (fun matching c => if c.architecture = basearch then c.checksum else matching)
    ""

/-- Embeds `Handler<GetLatest> for Scraper` (src/scraper.rs,
lines 152-183), acting on a cache snapshot. -/
def getLatest (latest : List (String × Release)) (msg : GetLatest) :
    Except GetLatestError CincinnatiPayload :=
  match mapGet latest msg.stream with
  | none => .error .streamUnavailable
  | some release =>
    let checksum := scanChecksum release.commits msg.basearch
    if checksum = "" then .error .basearchUnavailable
    else
      .ok
        { version := release.version
          payload := checksum
          metadata :=
            [("org.fedoraproject.coreos.scheme", "checksum"),
             ("org.fedoraproject.coreos.releases.age_index", "1")] }

/-- The `GetLatest` handler with its full actor signature: it takes the
scraper state and returns it together with the reply (the handler takes
`&mut self` but performs no write). -/
def handleGetLatest (self : Scraper) (msg : GetLatest) :
    Scraper × Except GetLatestError CincinnatiPayload :=
  (self, getLatest self.latest msg)

/-- The messages the scraper actor processes, each with the environment
data its handler consumes (the fetch outcomes and the clock reading for
a tick). -/
inductive Msg where
  | refreshTick (fetch : String → FetchOutcome) (now : Int)
  | getLatestMsg (basearch : String) (stream : String)

/-- One step of the scraper actor: the state after processing one
message. -/
def stepState (st : Scraper) : Msg → Scraper
  | .refreshTick fetch now => (handleRefreshTick st fetch now).1
  | .getLatestMsg b s => (handleGetLatest st { basearch := b, stream := s }).1

/-- The scraper state reached from `Scraper::new` after processing a
sequence of messages in mailbox order. -/
def runScraper (streams : List String) (pause : Nat) (msgs : List Msg) : Scraper :=
  msgs.foldl stepState (Scraper.new streams pause)

/-- Embeds the query parameters of `GET /v1/graph`; `none` is an absent
parameter (`unwrap_or_default` turns it into the empty string). -/
structure QueryParams where
  current_os : Option String
  os_checksum : Option String
  stream : Option String

/-- The responses `serve_graph` can produce: `badRequest` is
`HttpResponse::BadRequest().finish()` (400, empty body); `ok` carries the
content type and the graph the body serializes; `errorResponse` is a
query or serialization failure surfaced through the future's error
channel. -/
inductive ServeResponse where
  | badRequest
  | ok (contentType : String) (body : Graph)
  | errorResponse
deriving DecidableEq, Repr

/-- Embeds the client-id selection of `serve_graph` (src/main.rs,
lines 59-67): `current_os` when non-empty, else `os_checksum`. -/
def clientOS (current_os os_checksum : String) : String :=
  if current_os = "" then os_checksum else current_os

/-- Embeds the synthesized "current" node of `serve_graph` (src/main.rs,
lines 78-85). -/
def currentNode (os : String) : CincinnatiPayload :=
  { version := "client-os-version"
    payload := os
    metadata :=
      [("org.fedoraproject.coreos.scheme", "checksum"),
       ("org.fedoraproject.coreos.releases.age_index", "0")] }

/-- Embeds `serve_graph` (src/main.rs, lines 55-111) against a cache
snapshot: validate the client id and stream parameters, query
`GetLatest` with the hard-coded basearch `"x86_64"`, and assemble the
two-node graph. -/
def serve_graph (req : QueryParams) (cache : List (String × Release)) : ServeResponse :=
  let os := clientOS (req.current_os.getD "") (req.os_checksum.getD "")
  if os = "" then .badRequest
  else
    let stream := req.stream.getD ""
    if stream = "" then .badRequest
    else
      match getLatest cache { basearch := "x86_64", stream := stream } with
      | .error _ => .errorResponse
      | .ok latest =>
        .ok "application/json"
          { nodes := [currentNode os, latest], edges := [(0, 1)] }

/-- The last commit of a commit sequence whose architecture equals
`basearch`, if any: the commit whose checksum the scan loop of
`GetLatest` ends up tracking. -/
def lastMatch (commits : List Commit) (basearch : String) : Option Commit :=
  match commits with
  | [] => none
  | c :: rest =>
    match lastMatch rest basearch with
    | some d => some d
    | none => if c.architecture = basearch then some c else none

theorem foldl_scan_eq (A : String) (commits : List Commit) : ∀ acc : String,
    commits.foldl (fun matching c => if c.architecture = A then c.checksum else matching) acc
      = match lastMatch commits A with
        | some c => c.checksum
        | none => acc := by
  induction commits with
  | nil => intro acc; rfl
  | cons c cs ih =>
    intro acc
    rw [List.foldl_cons, ih]
    cases h : lastMatch cs A with
    | none => by_cases hc : c.architecture = A <;> simp [lastMatch, h, hc]
    | some d => simp [lastMatch, h]

theorem scanChecksum_eq (commits : List Commit) (A : String) :
    scanChecksum commits A
      = match lastMatch commits A with
        | some c => c.checksum
        | none => "" :=
  foldl_scan_eq A commits ""

theorem lastMatch_eq_none (commits : List Commit) (A : String)
    (h : ∀ c ∈ commits, c.architecture ≠ A) : lastMatch commits A = none := by
  induction commits with
  | nil => rfl
  | cons c cs ih =>
    have hc := h c (List.mem_cons_self c cs)
    have hrest := ih fun d hd => h d (List.mem_cons_of_mem c hd)
    simp [lastMatch, hrest, hc]

theorem lastMatch_mem (commits : List Commit) (A : String) (c : Commit)
    (h : lastMatch commits A = some c) : c ∈ commits ∧ c.architecture = A := by
  induction commits with
  | nil => simp [lastMatch] at h
  | cons d cs ih =>
    rw [lastMatch] at h
    cases hr : lastMatch cs A with
    | some e =>
      rw [hr] at h
      obtain ⟨hmem, harch⟩ := ih (hr.trans h)
      exact ⟨List.mem_cons_of_mem d hmem, harch⟩
    | none =>
      rw [hr] at h
      by_cases hd : d.architecture = A
      · rw [if_pos hd] at h
        cases h
        exact ⟨List.mem_cons_self _ _, hd⟩
      · rw [if_neg hd] at h
        cases h

theorem getLatest_stream_missing (cache : List (String × Release)) (A S : String)
    (h : mapGet cache S = none) :
    getLatest cache { basearch := A, stream := S } = .error .streamUnavailable := by
  simp [getLatest, h]

theorem getLatest_of_release (cache : List (String × Release)) (A S : String)
    (R : Release) (h : mapGet cache S = some R) :
    getLatest cache { basearch := A, stream := S }
      = (if scanChecksum R.commits A = "" then .error .basearchUnavailable
         else
           .ok
             { version := R.version
               payload := scanChecksum R.commits A
               metadata :=
                 [("org.fedoraproject.coreos.scheme", "checksum"),
                  ("org.fedoraproject.coreos.releases.age_index", "1")] }) := by
  simp [getLatest, h]

/-- Claim C3 counterexample: the claim asserts `GetLatest` succeeds iff
some commit of the cached release has the requested architecture. With a
release whose single commit has architecture `"x86_64"` but an empty
checksum, a commit of the required architecture exists yet the call
fails (the scan loop cannot tell this apart from no match). -/
theorem getLatest_iff_counterexample :
    (∃ c ∈ ((⟨"1", [⟨"x86_64", ""⟩]⟩ : Release)).commits, c.architecture = "x86_64")
    ∧ mapGet [("s", (⟨"1", [⟨"x86_64", ""⟩]⟩ : Release))] "s"
        = some ⟨"1", [⟨"x86_64", ""⟩]⟩
    ∧ getLatest [("s", (⟨"1", [⟨"x86_64", ""⟩]⟩ : Release))] ⟨"x86_64", "s"⟩
        = .error .basearchUnavailable := by
  refine ⟨⟨⟨"x86_64", ""⟩, ?_, rfl⟩, rfl, rfl⟩
  simp

/-- Claim C3 (amended): for every stream `S` present in the cache with
release `R` and every architecture `A`, `GetLatest(S, A)` succeeds if and
only if `R` has a commit of architecture `A` and the last such commit in
sequence order has a non-empty checksum; on success it returns
`Payload{version = R.version, payload = that checksum,
metadata = {scheme: "checksum", age_index: "1"}}`. -/
theorem getLatest_success_characterization (cache : List (String × Release))
    (S A : String) (R : Release) (h : mapGet cache S = some R) :
    ((∃ P, getLatest cache { basearch := A, stream := S } = .ok P)
       ↔ ∃ c, lastMatch R.commits A = some c ∧ c.checksum ≠ "")
    ∧ ∀ c, lastMatch R.commits A = some c → c.checksum ≠ "" →
        getLatest cache { basearch := A, stream := S }
          = .ok
              { version := R.version
                payload := c.checksum
                metadata :=
                  [("org.fedoraproject.coreos.scheme", "checksum"),
                   ("org.fedoraproject.coreos.releases.age_index", "1")] } := by
  have hscan := scanChecksum_eq R.commits A
  have hok : ∀ c, lastMatch R.commits A = some c → c.checksum ≠ "" →
      getLatest cache { basearch := A, stream := S }
        = .ok
            { version := R.version
              payload := c.checksum
              metadata :=
                [("org.fedoraproject.coreos.scheme", "checksum"),
                 ("org.fedoraproject.coreos.releases.age_index", "1")] } := by
    intro c hl hc
    rw [hl] at hscan
    rw [getLatest_of_release cache A S R h, hscan, if_neg hc]
  refine ⟨⟨?_, ?_⟩, hok⟩
  · rintro ⟨P, hP⟩
    rw [getLatest_of_release cache A S R h] at hP
    by_cases hz : scanChecksum R.commits A = ""
    · rw [if_pos hz] at hP; cases hP
    · cases hl : lastMatch R.commits A with
      | none => rw [hl] at hscan; exact absurd hscan hz
      | some c =>
        rw [hl] at hscan
        exact ⟨c, rfl, fun hce => hz (hscan.trans hce)⟩
  · rintro ⟨c, hl, hc⟩
    exact ⟨_, hok c hl hc⟩

/-- Claim C3 witness: Scenario 1 — a cached release with one `x86_64`
commit of checksum `"abc"` yields that checksum. -/
theorem getLatest_success_characterization_witness :
    getLatest [("stable", (⟨"30.1", [⟨"x86_64", "abc"⟩]⟩ : Release))]
      ⟨"x86_64", "stable"⟩
      = .ok ⟨"30.1",
             [("org.fedoraproject.coreos.scheme", "checksum"),
              ("org.fedoraproject.coreos.releases.age_index", "1")],
             "abc"⟩ :=
  (getLatest_success_characterization
      [("stable", (⟨"30.1", [⟨"x86_64", "abc"⟩]⟩ : Release))]
      "stable" "x86_64" ⟨"30.1", [⟨"x86_64", "abc"⟩]⟩ rfl).2
    ⟨"x86_64", "abc"⟩ rfl (by decide)

/-- Claim C4: `GetLatest` fails with `StreamUnavailable` when the stream
is absent from the cache, fails with `BasearchUnavailable` when the
stream is cached but no commit of the cached release matches the
basearch, and every failure is one of these two errors. -/
theorem getLatest_failure_modes (cache : List (String × Release)) (b s : String) :
    (mapGet cache s = none →
       getLatest cache { basearch := b, stream := s } = .error .streamUnavailable)
    ∧ (∀ R : Release, mapGet cache s = some R →
         (∀ c ∈ R.commits, c.architecture ≠ b) →
         getLatest cache { basearch := b, stream := s } = .error .basearchUnavailable)
    ∧ (∀ e : GetLatestError, getLatest cache { basearch := b, stream := s } = .error e →
         e = .streamUnavailable ∨ e = .basearchUnavailable) := by
  refine ⟨getLatest_stream_missing cache b s, ?_, ?_⟩
  · intro R hR hnone
    have hscan := scanChecksum_eq R.commits b
    rw [lastMatch_eq_none R.commits b hnone] at hscan
    rw [getLatest_of_release cache b s R hR, if_pos hscan]
  · intro e _
    cases e
    · exact Or.inl rfl
    · exact Or.inr rfl

/-- Claim C4 witness: Scenario 2 — a stream absent from the cache fails
with `StreamUnavailable`. -/
theorem getLatest_failure_modes_witness :
    mapGet ([] : List (String × Release)) "missing" = none
    ∧ getLatest [] { basearch := "x86_64", stream := "missing" }
        = .error .streamUnavailable :=
  ⟨rfl, (getLatest_failure_modes [] "x86_64" "missing").1 rfl⟩

/-- Claim C10: when the last commit of the cached release matching the
requested basearch has an empty checksum, `GetLatest` fails with
`BasearchUnavailable` rather than returning a payload with an empty
checksum — the scan loop uses the empty string as its no-match
sentinel. -/
theorem empty_checksum_sentinel (cache : List (String × Release)) (S A : String)
    (R : Release) (c : Commit) (h : mapGet cache S = some R)
    (hl : lastMatch R.commits A = some c) (hc : c.checksum = "") :
    getLatest cache { basearch := A, stream := S } = .error .basearchUnavailable := by
  have hscan : scanChecksum R.commits A = c.checksum := by
    rw [scanChecksum_eq, hl]
  rw [hc] at hscan
  rw [getLatest_of_release cache A S R h, if_pos hscan]

/-- Claim C10 witness: an earlier matching commit has checksum
`"good"`, the last matching commit has an empty checksum, and the call
fails. -/
theorem empty_checksum_sentinel_witness :
    getLatest
      [("s", (⟨"1", [⟨"x86_64", "good"⟩, ⟨"x86_64", ""⟩]⟩ : Release))]
      ⟨"x86_64", "s"⟩ = .error .basearchUnavailable :=
  empty_checksum_sentinel _ "s" "x86_64" _ ⟨"x86_64", ""⟩ rfl rfl rfl

theorem fetchAll_error_of_mem (fetch : String → FetchOutcome) :
    ∀ streams : List String, ∀ s ∈ streams, fetch s = .error () →
      fetchAll fetch streams = .error () := by
  intro streams
  induction streams with
  | nil => intro s hs; cases hs
  | cons t rest ih =>
    intro s hs hf
    rcases List.mem_cons.mp hs with h | h
    · subst h
      simp [fetchAll, hf]
    · have hrest := ih s h hf
      cases hft : fetch t with
      | error e => simp [fetchAll, hft]
      | ok r => simp [fetchAll, hft, hrest]

theorem fetchAll_ok_of_forall (fetch : String → FetchOutcome) :
    ∀ streams : List String, (∀ s ∈ streams, ∃ r, fetch s = .ok r) →
      ∃ vec, fetchAll fetch streams = .ok vec ∧ vec.map Prod.fst = streams := by
  intro streams
  induction streams with
  | nil => intro _; exact ⟨[], rfl, rfl⟩
  | cons t rest ih =>
    intro h
    obtain ⟨r, hr⟩ := h t (List.mem_cons_self _ _)
    obtain ⟨vec, hvec, hfst⟩ := ih fun s hs => h s (List.mem_cons_of_mem _ hs)
    refine ⟨(t, r) :: vec, ?_, ?_⟩
    · simp [fetchAll, hr, hvec]
    · simp [hfst]

theorem fetchAll_fst (fetch : String → FetchOutcome) :
    ∀ (streams : List String) (vec : List (String × Option Release)),
      fetchAll fetch streams = .ok vec → vec.map Prod.fst = streams := by
  intro streams
  induction streams with
  | nil =>
    intro vec h
    rw [fetchAll] at h
    cases h
    rfl
  | cons t rest ih =>
    intro vec h
    rw [fetchAll] at h
    cases hft : fetch t with
    | error e => rw [hft] at h; cases h
    | ok r =>
      rw [hft] at h
      cases hrest : fetchAll fetch rest with
      | error e => rw [hrest] at h; cases h
      | ok vec2 =>
        rw [hrest] at h
        cases h
        simp [ih vec2 hrest]

theorem refresh_cache_error (st : Scraper) (fetch : String → FetchOutcome)
    (s : String) (hs : s ∈ st.streams) (hf : fetch s = .error ()) :
    refresh_cache st fetch = .error () := by
  rw [refresh_cache, fetchAll_error_of_mem fetch st.streams s hs hf]
  rfl

/-- The scraper state and fetch outcomes of a cycle in which stream "a"
fails while stream "b" succeeds, with "a" previously cached. -/
def partialFailureState : Scraper :=
  ⟨[("a", ⟨"1.0", [⟨"x86_64", "aaa"⟩]⟩)], 30, ["a", "b"], 0, none⟩

/-- Fetch outcomes for the partial-failure cycle: "b" succeeds with a
fresh release, every other stream fails. -/
def partialFailureFetch : String → FetchOutcome :=
  fun s => if s = "b" then .ok (some ⟨"2.0", [⟨"x86_64", "bbb"⟩]⟩) else .error ()

/-- Claim C1 counterexample: stream "a" (previously cached) fails while
stream "b" succeeds; `join_all` fails the whole joined future, the error
branch skips the cache installation, and the cycle ends with the old
cache: no entry for the succeeding stream "b", and the failing stream
"a" still present. The claim asserts the opposite on both counts. -/
theorem resilience_counterexample :
    mapGet (handleRefreshTick partialFailureState partialFailureFetch 0).1.latest "b" = none
    ∧ mapGet (handleRefreshTick partialFailureState partialFailureFetch 0).1.latest "a"
        = some ⟨"1.0", [⟨"x86_64", "aaa"⟩]⟩ :=
  ⟨rfl, rfl⟩

/-- Claim C1 (amended): in every refresh cycle in which at least one
configured stream's fetch fails, no new cache is installed at all: the
cache is left exactly as it was before the cycle, so succeeding streams'
fresh data is discarded and the failing stream's previous entry (if any)
is retained. -/
theorem partial_fetch_failure_retains_cache (st : Scraper)
    (fetch : String → FetchOutcome) (now : Int)
    (h : ∃ s ∈ st.streams, fetch s = .error ()) :
    (handleRefreshTick st fetch now).1.latest = st.latest := by
  obtain ⟨s, hs, hf⟩ := h
  simp [handleRefreshTick, refresh_cache_error st fetch s hs hf]

/-- Claim C1 witness: the partial-failure cycle leaves the cache
untouched. -/
theorem partial_fetch_failure_retains_cache_witness :
    (∃ s ∈ partialFailureState.streams, partialFailureFetch s = .error ())
    ∧ (handleRefreshTick partialFailureState partialFailureFetch 0).1.latest
        = partialFailureState.latest :=
  ⟨⟨"a", by decide, rfl⟩,
   partial_fetch_failure_retains_cache partialFailureState partialFailureFetch 0
     ⟨"a", by decide, rfl⟩⟩

/-- Claim C2 counterexample: in a cycle whose only stream's fetch fails,
the refresh-attempt counter is incremented but the last-refresh gauge is
not set (it stays at its initial value instead of the cycle time 5): the
gauge update sits in the success-only branch, so it is not
unconditional. -/
theorem refresh_gauge_counterexample :
    (handleRefreshTick ⟨[], 30, ["stable"], 0, none⟩ (fun _ => .error ()) 5).1.lastRefresh
        = none
    ∧ (handleRefreshTick ⟨[], 30, ["stable"], 0, none⟩ (fun _ => .error ()) 5).1.scrapes
        = 1 :=
  ⟨rfl, rfl⟩

/-- Claim C2 (amended): every `RefreshTick` cycle increments the
refresh-attempt counter unconditionally; the last-refresh timestamp
gauge is set to the cycle's time exactly when every stream's fetch
succeeds, and is left unchanged when any fetch fails. -/
theorem refresh_metrics_update (st : Scraper) (fetch : String → FetchOutcome)
    (now : Int) :
    (handleRefreshTick st fetch now).1.scrapes = st.scrapes + 1
    ∧ ((∀ s ∈ st.streams, ∃ r, fetch s = .ok r) →
        (handleRefreshTick st fetch now).1.lastRefresh = some now)
    ∧ ((∃ s ∈ st.streams, fetch s = .error ()) →
        (handleRefreshTick st fetch now).1.lastRefresh = st.lastRefresh) := by
  refine ⟨?_, ?_, ?_⟩
  · cases h : refresh_cache st fetch <;> simp [handleRefreshTick, h]
  · intro h
    obtain ⟨vec, hvec, -⟩ := fetchAll_ok_of_forall fetch st.streams h
    have hok : refresh_cache st fetch = .ok (buildCache vec) := by
      rw [refresh_cache, hvec]
      rfl
    simp [handleRefreshTick, hok]
  · rintro ⟨s, hs, hf⟩
    simp [handleRefreshTick, refresh_cache_error st fetch s hs hf]

/-- Claim C2 witness: a fully successful cycle sets the gauge to the
cycle time 7. -/
theorem refresh_metrics_update_witness :
    (handleRefreshTick ⟨[], 30, ["stable"], 0, none⟩
        (fun _ => .ok (some ⟨"30.1", [⟨"x86_64", "abc"⟩]⟩)) 7).1.lastRefresh = some 7 :=
  (refresh_metrics_update ⟨[], 30, ["stable"], 0, none⟩
      (fun _ => .ok (some ⟨"30.1", [⟨"x86_64", "abc"⟩]⟩)) 7).2.1
    (fun _ _ => ⟨some ⟨"30.1", [⟨"x86_64", "abc"⟩]⟩, rfl⟩)

/-- Claim C9: whatever the cycle's outcome, the `RefreshTick` handler's
event trace contains exactly one scheduling event, it carries the fixed
configured pause, and it is the last event of the trace — the next tick
is scheduled only once the cycle's outcome is fully resolved, so in the
actor's serialized mailbox refresh cycles never overlap. -/
theorem refresh_reschedules_exactly_once (st : Scraper)
    (fetch : String → FetchOutcome) (now : Int) :
    (handleRefreshTick st fetch now).2.filter RefreshEvent.isTick
        = [RefreshEvent.scheduleTick st.refresh_pause]
    ∧ (handleRefreshTick st fetch now).2.getLast?
        = some (RefreshEvent.scheduleTick st.refresh_pause) := by
  cases h : refresh_cache st fetch <;>
    simp [handleRefreshTick, h, RefreshEvent.isTick, List.filter]

theorem mapGet_mapInsert {α : Type} (m : List (String × α)) (a k : String)
    (v r : α) (h : mapGet (mapInsert m a v) k = some r) :
    k = a ∨ mapGet m k = some r := by
  induction m with
  | nil =>
    rw [mapInsert, mapGet] at h
    by_cases hk : a = k
    · exact Or.inl hk.symm
    · rw [if_neg hk] at h
      cases h
  | cons p rest ih =>
    rw [mapInsert] at h
    by_cases hp : p.1 = a
    · rw [if_pos hp, mapGet] at h
      by_cases hk : a = k
      · exact Or.inl hk.symm
      · rw [if_neg hk] at h
        right
        rw [mapGet, if_neg (hp ▸ hk)]
        exact h
    · rw [if_neg hp, mapGet] at h
      by_cases hk : p.1 = k
      · rw [if_pos hk] at h
        right
        rw [mapGet, if_pos hk]
        exact h
      · rw [if_neg hk] at h
        rcases ih h with h1 | h2
        · exact Or.inl h1
        · right
          rw [mapGet, if_neg hk]
          exact h2

theorem mapGet_foldl_insert (vec : List (String × Option Release)) :
    ∀ (m : List (String × Release)) (k : String) (r : Release),
      mapGet
          (vec.foldl
            (fun m p =>
              match p.2 with
              | some rel => mapInsert m p.1 rel
              | none => m)
            m)
          k = some r →
      (∃ r0, mapGet m k = some r0) ∨ k ∈ vec.map Prod.fst := by
  induction vec with
  | nil => intro m k r h; exact Or.inl ⟨r, h⟩
  | cons p rest ih =>
    intro m k r h
    rw [List.foldl_cons] at h
    rcases ih _ k r h with ⟨r0, hr0⟩ | hmem
    · cases hp : p.2 with
      | none =>
        rw [hp] at hr0
        exact Or.inl ⟨r0, hr0⟩
      | some rel =>
        rw [hp] at hr0
        rcases mapGet_mapInsert m p.1 k rel r0 hr0 with h1 | h2
        · right
          simp [h1]
        · exact Or.inl ⟨r0, h2⟩
    · right
      simp [hmem]

theorem mapGet_buildCache (vec : List (String × Option Release)) (k : String)
    (r : Release) (h : mapGet (buildCache vec) k = some r) :
    k ∈ vec.map Prod.fst := by
  rcases mapGet_foldl_insert vec [] k r h with ⟨r0, h0⟩ | hmem
  · cases h0
  · exact hmem

theorem refresh_cache_ok_elim (st : Scraper) (fetch : String → FetchOutcome)
    (cache : List (String × Release)) (h : refresh_cache st fetch = .ok cache) :
    ∃ vec, fetchAll fetch st.streams = .ok vec ∧ cache = buildCache vec := by
  rw [refresh_cache] at h
  cases hf : fetchAll fetch st.streams with
  | error e =>
    rw [hf] at h
    cases h
  | ok vec =>
    rw [hf] at h
    cases h
    exact ⟨vec, rfl, rfl⟩

theorem stepState_streams (st : Scraper) (m : Msg) :
    (stepState st m).streams = st.streams := by
  cases m with
  | refreshTick fetch now =>
    cases h : refresh_cache st fetch <;> simp [stepState, handleRefreshTick, h]
  | getLatestMsg b s => rfl

theorem stepState_keys (streams : List String) (st : Scraper) (m : Msg)
    (hstr : st.streams = streams)
    (hk : ∀ k r, mapGet st.latest k = some r → k ∈ streams) :
    ∀ k r, mapGet (stepState st m).latest k = some r → k ∈ streams := by
  cases m with
  | getLatestMsg b s => exact hk
  | refreshTick fetch now =>
    intro k r h
    cases hrc : refresh_cache st fetch with
    | error e =>
      simp [stepState, handleRefreshTick, hrc] at h
      exact hk k r h
    | ok cache =>
      obtain ⟨vec, hvec, hcache⟩ := refresh_cache_ok_elim st fetch cache hrc
      simp [stepState, handleRefreshTick, hrc] at h
      subst hcache
      have hm := mapGet_buildCache vec k r h
      rw [fetchAll_fst fetch st.streams vec hvec, hstr] at hm
      exact hm

theorem runScraper_inv (streams : List String) :
    ∀ (msgs : List Msg) (st : Scraper), st.streams = streams →
      (∀ k r, mapGet st.latest k = some r → k ∈ streams) →
      ∀ k r, mapGet (msgs.foldl stepState st).latest k = some r → k ∈ streams := by
  intro msgs
  induction msgs with
  | nil => intro st _ hk; exact hk
  | cons m rest ih =>
    intro st hstr hk
    rw [List.foldl_cons]
    exact ih (stepState st m) ((stepState_streams st m).trans hstr)
      (stepState_keys streams st m hstr hk)

/-- Claim C7: in every state reachable from the freshly started scraper
(empty cache) by any sequence of `RefreshTick` and `GetLatest` messages,
every key of the cache map is one of the configured streams. -/
theorem cache_keys_subset_configured (streams : List String) (pause : Nat)
    (msgs : List Msg) (k : String) (r : Release)
    (h : mapGet (runScraper streams pause msgs).latest k = some r) :
    k ∈ streams :=
  runScraper_inv streams msgs (Scraper.new streams pause) rfl
    (fun _ _ h0 => by cases h0) k r h

/-- Claim C7 witness: after one successful tick the cached key "stable"
is a configured stream. -/
theorem cache_keys_subset_configured_witness :
    mapGet (runScraper ["stable"] 30
        [Msg.refreshTick (fun _ => .ok (some ⟨"30.1", [⟨"x86_64", "abc"⟩]⟩)) 0]).latest
        "stable"
      = some ⟨"30.1", [⟨"x86_64", "abc"⟩]⟩
    ∧ "stable" ∈ ["stable"] :=
  ⟨rfl,
   cache_keys_subset_configured ["stable"] 30
     [Msg.refreshTick (fun _ => .ok (some ⟨"30.1", [⟨"x86_64", "abc"⟩]⟩)) 0]
     "stable" ⟨"30.1", [⟨"x86_64", "abc"⟩]⟩ rfl⟩

/-- Claim C8: handling a `GetLatest` message leaves the whole scraper
state unchanged, and the reply is a function of the cache snapshot
alone: two scraper states with the same cache give identical replies to
the same query. -/
theorem getLatest_readonly_deterministic (st st2 : Scraper) (b s : String)
    (h : st.latest = st2.latest) :
    stepState st (.getLatestMsg b s) = st
    ∧ (handleGetLatest st { basearch := b, stream := s }).2
        = (handleGetLatest st2 { basearch := b, stream := s }).2 :=
  ⟨rfl, by simp [handleGetLatest, h]⟩

/-- Claim C8 witness: two states sharing a cache but differing in every
other field answer the same query identically, and the message does not
change the state. -/
theorem getLatest_readonly_deterministic_witness :
    stepState ⟨[("stable", ⟨"30.1", [⟨"x86_64", "abc"⟩]⟩)], 30, ["stable"], 3, some 9⟩
        (.getLatestMsg "x86_64" "stable")
      = ⟨[("stable", ⟨"30.1", [⟨"x86_64", "abc"⟩]⟩)], 30, ["stable"], 3, some 9⟩
    ∧ (handleGetLatest
          ⟨[("stable", ⟨"30.1", [⟨"x86_64", "abc"⟩]⟩)], 30, ["stable"], 3, some 9⟩
          ⟨"x86_64", "stable"⟩).2
        = (handleGetLatest
            ⟨[("stable", ⟨"30.1", [⟨"x86_64", "abc"⟩]⟩)], 60, ["stable"], 7, none⟩
            ⟨"x86_64", "stable"⟩).2 :=
  getLatest_readonly_deterministic
    ⟨[("stable", ⟨"30.1", [⟨"x86_64", "abc"⟩]⟩)], 30, ["stable"], 3, some 9⟩
    ⟨[("stable", ⟨"30.1", [⟨"x86_64", "abc"⟩]⟩)], 60, ["stable"], 7, none⟩
    "x86_64" "stable" rfl

/-- Claim C5: a `/v1/graph` request whose stream parameter is missing or
empty, or whose client-id parameters are both missing or empty, gets a
400 with empty body; when `current_os` is non-empty it is the client
identifier, regardless of `os_checksum`. -/
theorem serve_graph_param_validation (req : QueryParams)
    (cache : List (String × Release)) :
    ((req.stream.getD "" = ""
        ∨ (req.current_os.getD "" = "" ∧ req.os_checksum.getD "" = "")) →
      serve_graph req cache = .badRequest)
    ∧ (∀ c o s : String, c ≠ "" →
        serve_graph ⟨some c, some o, some s⟩ cache
          = serve_graph ⟨some c, none, some s⟩ cache) := by
  constructor
  · intro h
    rcases h with hstream | ⟨hc, ho⟩
    · by_cases hos : clientOS (req.current_os.getD "") (req.os_checksum.getD "") = ""
      · simp [serve_graph, hos]
      · simp [serve_graph, hos, hstream]
    · have hos : clientOS (req.current_os.getD "") (req.os_checksum.getD "") = "" := by
        simp [clientOS, hc, ho]
      simp [serve_graph, hos]
  · intro c o s hc
    simp [serve_graph, clientOS, hc]

/-- Claim C5 witness: Scenario 4 — `stream=stable` with no client id is
a 400. -/
theorem serve_graph_param_validation_witness :
    serve_graph ⟨none, none, some "stable"⟩ [] = .badRequest :=
  (serve_graph_param_validation ⟨none, none, some "stable"⟩ []).1 (Or.inr ⟨rfl, rfl⟩)

/-- Claim C6: a `/v1/graph` request with a non-empty client id and a
non-empty stream whose `GetLatest` query succeeds with payload `P` gets
a 200 `application/json` response whose graph is
`{nodes: [current, P], edges: [[0, 1]]}` with
`current = {version: "client-os-version", payload: the client id,
metadata: {scheme: "checksum", age_index: "0"}}`. -/
theorem serve_graph_success_graph (req : QueryParams)
    (cache : List (String × Release)) (P : CincinnatiPayload)
    (hos : clientOS (req.current_os.getD "") (req.os_checksum.getD "") ≠ "")
    (hstream : req.stream.getD "" ≠ "")
    (hq : getLatest cache { basearch := "x86_64", stream := req.stream.getD "" } = .ok P) :
    serve_graph req cache
      = .ok "application/json"
          ⟨[currentNode (clientOS (req.current_os.getD "") (req.os_checksum.getD "")), P],
           [(0, 1)]⟩ := by
  simp [serve_graph, hos, hstream, hq]

/-- Claim C6 witness: Scenario 5 — `current_os=deadbeef&stream=stable`
against the Scenario 1 cache. -/
theorem serve_graph_success_graph_witness :
    serve_graph ⟨some "deadbeef", none, some "stable"⟩
        [("stable", (⟨"30.1", [⟨"x86_64", "abc"⟩]⟩ : Release))]
      = .ok "application/json"
          ⟨[⟨"client-os-version",
             [("org.fedoraproject.coreos.scheme", "checksum"),
              ("org.fedoraproject.coreos.releases.age_index", "0")],
             "deadbeef"⟩,
            ⟨"30.1",
             [("org.fedoraproject.coreos.scheme", "checksum"),
              ("org.fedoraproject.coreos.releases.age_index", "1")],
             "abc"⟩],
           [(0, 1)]⟩ :=
  serve_graph_success_graph ⟨some "deadbeef", none, some "stable"⟩
    [("stable", (⟨"30.1", [⟨"x86_64", "abc"⟩]⟩ : Release))]
    ⟨"30.1",
     [("org.fedoraproject.coreos.scheme", "checksum"),
      ("org.fedoraproject.coreos.releases.age_index", "1")],
     "abc"⟩
    (by decide) (by decide) rfl

end FcosFakeup
